import Mathlib

/-!
Verification of the ICU4X linebreak tutorial linker wrapper
(`tutorials/linebreak/ld.py`).

The script's `main` scans `sys.argv[1:]` left to right with a boolean
`is_export` flag, building `new_argv`: an `--export X` pair is dropped when
`X` starts with `"ICU4X"` and is not in the `SYMBOLS` allow-list, and kept
otherwise; every other token is copied through.  It then runs
`subprocess.run(["ld.lld"] + new_argv, ...)` and returns the child's exit
code via `sys.exit(main())`.

The scan loop is embedded as a fold of `step` (the loop body) over the
argument list, with state `(new_argv, is_export)`.  The subprocess call is
embedded by passing the spawn facility as an explicit oracle function and
recording the argument lists handed to it.
-/

namespace LdWrapper

/-- Character-list core of Python's `str.startswith`: `starts_with_chars p s`
is true when `p` is an initial segment of `s`. -/
def starts_with_chars : List Char → List Char → Bool
  | [], _ => true
  | _ :: _, [] => false
  | p :: ps, c :: cs => p == c && starts_with_chars ps cs

/-- Embedding of Python's `arg.startswith(pat)` (`ld.py` line 21). -/
def startswith (s pat : String) : Bool :=
  starts_with_chars pat.data s.data

/-- The compiled-in allow-list `SYMBOLS` of `ld.py` (lines 9-15). -/
def SYMBOLS : List String := [
  "ICU4XDataProvider_create_compiled",
  "ICU4XDataProvider_destroy",
  "ICU4XCodePointMapData8_load_line_break",
  "ICU4XCodePointMapData8_get32",
  "ICU4XCodePointMapData8_destroy"
]

/-- The keep condition of `ld.py` line 21:
`not arg.startswith("ICU4X") or arg in SYMBOLS`. -/
def keep_arg (arg : String) : Bool :=
  !(startswith arg "ICU4X") || SYMBOLS.contains arg

/-- One iteration of the `for arg in sys.argv[1:]` loop body of `main`
(`ld.py` lines 20-28).  The state is the pair `(new_argv, is_export)`. -/
def step (st : List String × Bool) (arg : String) : List String × Bool :=
  if st.2 then
    (if keep_arg arg then st.1 ++ ["--export", arg] else st.1, false)
  else if arg == "--export" then
    (st.1, true)
  else
    (st.1 ++ [arg], false)

/-- The final `(new_argv, is_export)` state after the scan loop of `main`,
started (as in the source) from `new_argv = []`, `is_export = False`. -/
def scan_state (args : List String) : List String × Bool :=
  args.foldl step ([], false)

/-- The filtered argument list `new_argv` that `main` hands to the linker. -/
def filter_argv (args : List String) : List String :=
  (scan_state args).1

/-- Outcome of one `subprocess.run` call: either the child ran to completion
with a `returncode`, or the executable could not be found or started (in
Python, `subprocess.run` raises an exception the script does not catch). -/
inductive SpawnResult where
  | completed (returncode : Int)
  | launch_failure

/-- Observable outcome of one wrapper invocation: the argument lists handed
to the spawn facility, in order, and the wrapper's own exit code. -/
structure RunOutcome where
  invocations : List (List String)
  exit_code : Int

/-- Embedding of `ld.py` lines 30-34: `main` calls
`subprocess.run(["ld.lld"] + new_argv, ...)` exactly once and returns
`result.returncode`, which `sys.exit` turns into the process exit code.
When the spawn fails the exception propagates uncaught and the Python
interpreter terminates with exit code 1. -/
def ld_main (spawn : List String → SpawnResult) (argv : List String) : RunOutcome :=
  let cmd := ["ld.lld"] ++ filter_argv argv
  match spawn cmd with
  | SpawnResult.completed c => ⟨[cmd], c⟩
  | SpawnResult.launch_failure => ⟨[cmd], 1⟩

/-- `--export` pairs laid out flat: the input fragment
`--export s1 --export s2 ...`. -/
def export_pairs : List String → List String
  | [] => []
  | x :: rest => "--export" :: x :: export_pairs rest

/-- The surviving tokens of a run of `--export` pairs: each pair is kept or
dropped by `keep_arg` on its symbol, independently. -/
def kept_pairs : List String → List String
  | [] => []
  | x :: rest => (if keep_arg x then ["--export", x] else []) ++ kept_pairs rest

/-- The scan loop written as structural recursion on the remaining input,
parameterised by the `is_export` flag; used to reason about `filter_argv`. -/
def loop : Bool → List String → List String
  | _, [] => []
  | true, arg :: rest =>
      (if keep_arg arg then ["--export", arg] else []) ++ loop false rest
  | false, arg :: rest =>
      if arg == "--export" then loop true rest else arg :: loop false rest

theorem step_frame (out : List String) (b : Bool) (arg : String) :
    step (out, b) arg = (out ++ (step ([], b) arg).1, (step ([], b) arg).2) := by
  cases b with
  | true =>
    by_cases h : keep_arg arg = true <;> simp [step, h]
  | false =>
    by_cases h : (arg == "--export") = true <;> simp [step, h]

theorem foldl_step_frame (l : List String) (out : List String) (b : Bool) :
    l.foldl step (out, b)
      = (out ++ (l.foldl step ([], b)).1, (l.foldl step ([], b)).2) := by
  induction l generalizing out b with
  | nil => simp
  | cons a l ih =>
    rw [List.foldl_cons, List.foldl_cons, step_frame out b a]
    rcases h : step ([], b) a with ⟨s1, s2⟩
    rw [ih (out ++ s1) s2, ih s1 s2]
    simp

theorem foldl_eq_loop (l : List String) (b : Bool) :
    (l.foldl step ([], b)).1 = loop b l := by
  induction l generalizing b with
  | nil => cases b <;> simp [loop]
  | cons a l ih =>
    rw [List.foldl_cons, foldl_step_frame]
    cases b with
    | true =>
      by_cases h : keep_arg a = true <;> simp [step, loop, h, ih]
    | false =>
      by_cases h : (a == "--export") = true <;> simp [step, loop, h, ih]

theorem filter_eq_loop (args : List String) : filter_argv args = loop false args :=
  foldl_eq_loop args false

theorem filter_append_of_idle (pre l2 : List String)
    (h : (scan_state pre).2 = false) :
    filter_argv (pre ++ l2) = filter_argv pre ++ filter_argv l2 := by
  unfold scan_state at h
  unfold filter_argv scan_state
  rcases hp : List.foldl step ([], false) pre with ⟨O, b⟩
  rw [hp] at h
  have hb : b = false := h
  subst hb
  rw [List.foldl_append, hp, foldl_step_frame]

theorem loop_pair (x : String) (post : List String) :
    loop false ("--export" :: x :: post)
      = (if keep_arg x then ["--export", x] else []) ++ loop false post := by
  simp [loop]

theorem scan_pair (pre : List String) (x : String) (post : List String)
    (h : (scan_state pre).2 = false) :
    filter_argv (pre ++ "--export" :: x :: post)
      = filter_argv pre ++ (if keep_arg x then ["--export", x] else [])
          ++ filter_argv post := by
  rw [filter_append_of_idle pre _ h, filter_eq_loop ("--export" :: x :: post),
    loop_pair, ← filter_eq_loop, List.append_assoc]

theorem loop_false_idem_fuel :
    ∀ (n : Nat) (args : List String), args.length ≤ n →
      loop false (loop false args) = loop false args := by
  intro n
  induction n with
  | zero =>
    intro args h
    have : args = [] := List.eq_nil_of_length_eq_zero (Nat.le_zero.mp h)
    subst this
    simp [loop]
  | succ n ih =>
    intro args h
    match args with
    | [] => simp [loop]
    | a :: rest =>
      by_cases ha : (a == "--export") = true
      · rw [show loop false (a :: rest) = loop true rest by simp [loop, ha]]
        match rest with
        | [] => simp [loop]
        | x :: rest2 =>
          have hr2 : rest2.length ≤ n := by
            simp only [List.length_cons] at h
            omega
          by_cases hk : keep_arg x = true
          · rw [show loop true (x :: rest2)
                = "--export" :: x :: loop false rest2 by simp [loop, hk]]
            simp [loop, hk, ih rest2 hr2]
          · rw [show loop true (x :: rest2) = loop false rest2 by simp [loop, hk]]
            exact ih rest2 hr2
      · have hr : rest.length ≤ n := by
          simp only [List.length_cons] at h
          omega
        rw [show loop false (a :: rest) = a :: loop false rest by simp [loop, ha]]
        simp [loop, ha, ih rest hr]

theorem kept_of_no_export (args : List String) (h : "--export" ∉ args) :
    loop false args = args := by
  induction args with
  | nil => simp [loop]
  | cons a rest ih =>
    have ha : (a == "--export") = false := by
      rw [beq_eq_false_iff_ne]
      intro hc
      exact h (hc ▸ List.mem_cons_self a rest)
    have hrest : "--export" ∉ rest := fun hm => h (List.mem_cons_of_mem a hm)
    simp [loop, ha, ih hrest]

/-- C1: an `--export X` pair reached with the export-pending flag false,
where `X` starts with `"ICU4X"` and is not in the allow-list, contributes
nothing to the filtered output: neither that `--export` nor that `X` is
emitted. -/
theorem export_pair_dropped (pre : List String) (x : String) (post : List String)
    (h : (scan_state pre).2 = false)
    (hx : startswith x "ICU4X" = true)
    (hs : x ∉ SYMBOLS) :
    filter_argv (pre ++ "--export" :: x :: post)
      = filter_argv pre ++ filter_argv post := by
  have hk : keep_arg x = false := by
    simp [keep_arg, hx, hs]
  rw [scan_pair pre x post h, hk]
  simp

/-- C1 witness: the pair `--export ICU4XFoo_bar` between `-o` and `a.o` is
dropped entirely. -/
theorem export_pair_dropped_witness :
    (scan_state ["-o"]).2 = false
    ∧ startswith "ICU4XFoo_bar" "ICU4X" = true
    ∧ "ICU4XFoo_bar" ∉ SYMBOLS
    ∧ filter_argv (["-o"] ++ "--export" :: "ICU4XFoo_bar" :: ["a.o"])
        = filter_argv ["-o"] ++ filter_argv ["a.o"] :=
  ⟨by decide, by decide, by decide,
    export_pair_dropped ["-o"] "ICU4XFoo_bar" ["a.o"]
      (by decide) (by decide) (by decide)⟩

/-- C2: an `--export X` pair reached with the export-pending flag false,
where `X` does not start with `"ICU4X"` or is a member of the allow-list,
is preserved unchanged at the same relative position among the surviving
tokens. -/
theorem export_pair_kept (pre : List String) (x : String) (post : List String)
    (h : (scan_state pre).2 = false)
    (hx : startswith x "ICU4X" = false ∨ x ∈ SYMBOLS) :
    filter_argv (pre ++ "--export" :: x :: post)
      = filter_argv pre ++ "--export" :: x :: filter_argv post := by
  have hk : keep_arg x = true := by
    rcases hx with hx | hx
    · simp [keep_arg, hx]
    · simp [keep_arg, hx]
  rw [scan_pair pre x post h, hk]
  simp

/-- C2 witness: the pair `--export malloc` is kept in place. -/
theorem export_pair_kept_witness :
    (scan_state ["-o"]).2 = false
    ∧ startswith "malloc" "ICU4X" = false
    ∧ filter_argv (["-o"] ++ "--export" :: "malloc" :: ["a.o"])
        = filter_argv ["-o"] ++ "--export" :: "malloc" :: filter_argv ["a.o"] :=
  ⟨by decide, by decide,
    export_pair_kept ["-o"] "malloc" ["a.o"] (by decide) (Or.inl (by decide))⟩

/-- C3: an argument list containing no `--export` token passes through the
filter unchanged. -/
theorem no_export_identity (args : List String) (h : "--export" ∉ args) :
    filter_argv args = args := by
  rw [filter_eq_loop]
  exact kept_of_no_export args h

/-- C3 witness: a three-token list without `--export` is returned verbatim. -/
theorem no_export_identity_witness :
    "--export" ∉ ["-o", "out.wasm", "input.o"]
    ∧ filter_argv ["-o", "out.wasm", "input.o"] = ["-o", "out.wasm", "input.o"] :=
  ⟨by decide, no_export_identity ["-o", "out.wasm", "input.o"] (by decide)⟩

/-- C4: a trailing `--export` reached with the export-pending flag false (a
dangling `--export` with no following token) is never emitted: the scan
terminates with the same output as without it, and the input
`["--export"]` filters to `[]`. -/
theorem dangling_export_dropped (pre : List String)
    (h : (scan_state pre).2 = false) :
    filter_argv (pre ++ ["--export"]) = filter_argv pre
    ∧ filter_argv ["--export"] = [] := by
  constructor
  · rw [filter_append_of_idle pre _ h]
    have : filter_argv ["--export"] = [] := by decide
    rw [this, List.append_nil]
  · decide

/-- C4 witness: appending a dangling `--export` after `-o out.wasm` changes
nothing, and `["--export"]` alone filters to `[]`. -/
theorem dangling_export_dropped_witness :
    (scan_state ["-o", "out.wasm"]).2 = false
    ∧ (filter_argv (["-o", "out.wasm"] ++ ["--export"]) = filter_argv ["-o", "out.wasm"]
        ∧ filter_argv ["--export"] = []) :=
  ⟨by decide, dangling_export_dropped ["-o", "out.wasm"] (by decide)⟩

/-- C5: the end-to-end example: the allow-listed `ICU4X...` symbol and the
non-`ICU4X` symbol `malloc` are kept, the non-allow-listed `ICU4XFoo_bar`
is dropped together with its `--export`. -/
theorem end_to_end_example :
    filter_argv ["-o", "out.wasm", "--export", "ICU4XDataProvider_create_compiled",
        "--export", "ICU4XFoo_bar", "--export", "malloc", "input.o"]
      = ["-o", "out.wasm", "--export", "ICU4XDataProvider_create_compiled",
        "--export", "malloc", "input.o"] := by
  decide

/-- C6: when the child completes, the wrapper's exit code equals the child's
return code, unmodified. -/
theorem exit_code_propagated (spawn : List String → SpawnResult)
    (argv : List String) (c : Int)
    (h : spawn (["ld.lld"] ++ filter_argv argv) = SpawnResult.completed c) :
    (ld_main spawn argv).exit_code = c := by
  unfold ld_main
  simp only [h]

/-- C6 witness: exit codes 0, 1 and 2 are each propagated exactly. -/
theorem exit_code_propagated_witness :
    (ld_main (fun _ => SpawnResult.completed 0) []).exit_code = 0
    ∧ (ld_main (fun _ => SpawnResult.completed 1) []).exit_code = 1
    ∧ (ld_main (fun _ => SpawnResult.completed 2) []).exit_code = 2 :=
  ⟨exit_code_propagated (fun _ => SpawnResult.completed 0) [] 0 rfl,
    exit_code_propagated (fun _ => SpawnResult.completed 1) [] 1 rfl,
    exit_code_propagated (fun _ => SpawnResult.completed 2) [] 2 rfl⟩

/-- C7: the wrapper hands the fully computed filtered arguments to exactly
one child invocation of `ld.lld` (no retries, no alternate linker), and if
the spawn fails it exits with a non-zero status. -/
theorem launcher_failure_semantics (spawn : List String → SpawnResult)
    (argv : List String) :
    (ld_main spawn argv).invocations = [["ld.lld"] ++ filter_argv argv]
    ∧ (spawn (["ld.lld"] ++ filter_argv argv) = SpawnResult.launch_failure →
        (ld_main spawn argv).exit_code ≠ 0) := by
  constructor
  · unfold ld_main
    simp only [List.singleton_append]
    cases hs : spawn ("ld.lld" :: filter_argv argv) <;> simp [hs]
  · intro h
    unfold ld_main
    simp only [h]
    decide

/-- C7 witness: with a spawn that always fails to launch, the single
invocation received the filtered arguments and the exit code is non-zero. -/
theorem launcher_failure_semantics_witness :
    (ld_main (fun _ => SpawnResult.launch_failure) ["--export"]).invocations
        = [["ld.lld"] ++ filter_argv ["--export"]]
    ∧ (ld_main (fun _ => SpawnResult.launch_failure) ["--export"]).exit_code ≠ 0 :=
  ⟨(launcher_failure_semantics (fun _ => SpawnResult.launch_failure) ["--export"]).1,
    (launcher_failure_semantics (fun _ => SpawnResult.launch_failure) ["--export"]).2 rfl⟩

/-- C8: the export-pending flag is reset to false after every keep/drop
decision, so any run of consecutive `--export` pairs is evaluated pair by
pair, left to right, each independently of the others. -/
theorem pending_resets_pairs_independent :
    (∀ (out : List String) (arg : String), (step (out, true) arg).2 = false)
    ∧ ∀ (syms rest : List String),
        filter_argv (export_pairs syms ++ rest)
          = kept_pairs syms ++ filter_argv rest := by
  constructor
  · intro out arg
    simp [step]
  · intro syms
    induction syms with
    | nil =>
      intro rest
      simp [export_pairs, kept_pairs]
    | cons x syms ih =>
      intro rest
      have hflat : export_pairs (x :: syms) ++ rest
          = "--export" :: x :: (export_pairs syms ++ rest) := by
        simp [export_pairs]
      rw [hflat, filter_eq_loop, loop_pair, ← filter_eq_loop, ih rest, kept_pairs]
      simp

/-- C9: the filter is idempotent: filtering an already-filtered argument
list changes nothing. -/
theorem filter_idempotent (args : List String) :
    filter_argv (filter_argv args) = filter_argv args := by
  simp only [filter_eq_loop]
  exact loop_false_idem_fuel args.length args le_rfl

/-- C10: while the export-pending flag is true, any token, even the literal
`--export`, is consumed as the symbol argument of the preceding `--export`;
since `--export` does not start with `"ICU4X"` the pair is kept, so
`["--export", "--export"]` filters to itself. -/
theorem pending_consumes_export_token :
    (∀ out : List String,
        step (out, true) "--export" = (out ++ ["--export", "--export"], false))
    ∧ filter_argv ["--export", "--export"] = ["--export", "--export"] := by
  constructor
  · intro out
    have hk : keep_arg "--export" = true := by decide
    simp [step, hk]
  · decide

end LdWrapper
